import Mathlib

/-!
Shallow embedding of the beat-detection core of the Beat-to-Music repository
(file `pulse_sensor.py`, class `PulseSensor`).

Modelling conventions:
* ADC readings, filtered values, peak/valley/baseline and timestamps are
  natural numbers (the source works on unsigned 16-bit ADC values and
  millisecond tick counters); the threshold, beat intervals and BPM are
  integers (Python ints), and time differences are computed in `ℤ`.
* The float constants `threshold_factor` (default `0.6`) and the hysteresis
  factor `0.9` are modelled as exact rationals.  Python's `int(x * f)` on an
  integer `x` and a factor `f = f.num / f.den` is the truncation toward zero
  of the exact rational `x * f`, i.e. `Int.tdiv (x * f.num) f.den`; the
  comparison `filtered < threshold * 0.9` is, exactly, the integer
  comparison `10 * filtered < 9 * threshold`; `int(60000 / (sum / len))` is
  the truncation of `60000 * len / sum`.  Python's `//` on nonnegative
  integers is natural division, on possibly-negative integers `Int.fdiv`.
* The hardware reads `adc.read_u16()` and the clock `utime.ticks_ms()` are
  inputs of the embedded functions: each call takes the raw reading and the
  current time it would observe.
-/

/-- Python `int(x * f)` for an integer `x` and a (rational-valued) float
factor `f`: truncation toward zero of the exact rational `x * f`. -/
def intFloat (x : ℤ) (f : ℚ) : ℤ := Int.tdiv (x * f.num) (f.den : ℤ)

/-- State of `PulseSensor` (its `__init__` fields). -/
structure PulseSensor where
  threshold_factor : ℚ
  min_beat_interval : ℤ
  filter_size : ℕ
  readings : List ℕ
  reading_index : ℕ
  filtered_value : ℕ
  baseline : ℕ
  threshold : ℤ
  last_beat_time : ℕ
  beat_detected : Bool
  peak_value : ℕ
  valley_value : ℕ
  beat_intervals : List ℤ
  max_intervals : ℕ
  current_bpm : ℤ
  calibration_samples : ℕ
  calibrated : Bool
  deriving DecidableEq

/-- `PulseSensor.__init__(adc_pin, threshold_factor, min_beat_interval)`. -/
def initState (threshold_factor : ℚ) (min_beat_interval : ℤ) : PulseSensor where
  threshold_factor := threshold_factor
  min_beat_interval := min_beat_interval
  filter_size := 10
  readings := List.replicate 10 0
  reading_index := 0
  filtered_value := 0
  baseline := 32768
  threshold := 35000
  last_beat_time := 0
  beat_detected := false
  peak_value := 0
  valley_value := 65535
  beat_intervals := []
  max_intervals := 5
  current_bpm := 0
  calibration_samples := 100
  calibrated := false

/-- `PulseSensor.calibrate`, with the 100 ADC readings taken during the
loop supplied as the list `samples`.  It folds running min/max starting
from `min_val = 65535`, `max_val = 0`, then seeds the threshold state. -/
def calibrate (s : PulseSensor) (samples : List ℕ) : PulseSensor :=
  let min_val := samples.foldl Nat.min 65535
  let max_val := samples.foldl Nat.max 0
  let baseline := (min_val + max_val) / 2
  { s with
    baseline := baseline
    threshold := (baseline : ℤ) +
      intFloat ((max_val : ℤ) - (min_val : ℤ)) s.threshold_factor
    valley_value := min_val
    peak_value := max_val
    calibrated := true }

/-- Moving-average value produced by one `read_filtered` call: the raw
reading is written at the current index, and the mean of the window is
taken with integer truncation. -/
def filteredOf (s : PulseSensor) (raw_reading : ℕ) : ℕ :=
  (s.readings.set s.reading_index raw_reading).sum / s.filter_size

/-- `PulseSensor.read_filtered`, with the ADC reading supplied as
`raw_reading`.  Returns the new state and the pair
`(raw_reading, filtered_value)`. -/
def read_filtered (s : PulseSensor) (raw_reading : ℕ) : PulseSensor × ℕ × ℕ :=
  let s' := { s with
    readings := s.readings.set s.reading_index raw_reading
    reading_index := (s.reading_index + 1) % s.filter_size
    filtered_value := filteredOf s raw_reading }
  (s', raw_reading, s'.filtered_value)

/-- Result tuple of `detect_beat`:
`(beat_detected, raw_value, filtered_value, bpm)` plus the updated state. -/
structure DetectResult where
  state : PulseSensor
  beat : Bool
  raw_value : ℕ
  filtered_value : ℕ
  bpm : ℤ
  deriving DecidableEq

/-- Body of the beat-confirmation branch of `detect_beat` (everything after
`self.beat_detected = True`): record the inter-beat interval, evict the
oldest when over capacity, recompute the BPM when at least two intervals
exist, and stamp `last_beat_time`. -/
def fireBeat (s : PulseSensor) (current_time : ℕ) : PulseSensor :=
  let s' :=
    if 0 < s.last_beat_time then
      let interval : ℤ := (current_time : ℤ) - (s.last_beat_time : ℤ)
      let intervals0 := s.beat_intervals ++ [interval]
      let intervals :=
        if s.max_intervals < intervals0.length then intervals0.tail else intervals0
      if 2 ≤ intervals.length then
        { s with
          beat_intervals := intervals
          current_bpm :=
            Int.tdiv (60000 * (intervals.length : ℤ)) intervals.sum }
      else { s with beat_intervals := intervals }
    else s
  { s' with last_beat_time := current_time }

/-- Window contents pushed by the interval-recording part of a confirmed
beat (append the new interval, evict the oldest if over capacity). -/
def fireIntervals (s : PulseSensor) (t : ℕ) : List ℤ :=
  let iv := s.beat_intervals ++ [(t : ℤ) - (s.last_beat_time : ℤ)]
  if s.max_intervals < iv.length then iv.tail else iv

/-- Peak/valley tracking and dynamic threshold adjustment of `detect_beat`
(source lines 94–103): raise the peak / lower the valley to the new
filtered value, then recompute the threshold when the signal range
strictly exceeds 1000. -/
def adaptThreshold (s1 : PulseSensor) (filtered_val : ℕ) : PulseSensor :=
  let s2 := { s1 with
    peak_value := if s1.peak_value < filtered_val then filtered_val else s1.peak_value
    valley_value := if filtered_val < s1.valley_value then filtered_val else s1.valley_value }
  let signal_range : ℤ := (s2.peak_value : ℤ) - (s2.valley_value : ℤ)
  if 1000 < signal_range then
    { s2 with threshold :=
      (s2.valley_value : ℤ) + intFloat signal_range s2.threshold_factor }
  else s2

/-- Beat-confirmation condition of `detect_beat` (source lines 108–110):
rising edge over the threshold, not already latched, and past the
refractory interval. -/
def fireCond (s : PulseSensor) (filtered_val : ℕ) (current_time : ℕ) : Prop :=
  s.threshold < (filtered_val : ℤ) ∧ s.beat_detected = false ∧
    s.min_beat_interval < (current_time : ℤ) - (s.last_beat_time : ℤ)

instance (s : PulseSensor) (f t : ℕ) : Decidable (fireCond s f t) :=
  inferInstanceAs (Decidable (_ ∧ _ ∧ _))

/-- `PulseSensor.detect_beat`, with the ADC reading and the value of
`utime.ticks_ms()` supplied as inputs. -/
def detect_beat (s0 : PulseSensor) (raw_reading : ℕ) (current_time : ℕ) :
    DetectResult :=
  let p := read_filtered s0 raw_reading
  let filtered_val := p.2.2
  let s3 := adaptThreshold p.1 filtered_val
  if fireCond s3 filtered_val current_time then
    let s4 := fireBeat { s3 with beat_detected := true } current_time
    ⟨s4, true, p.2.1, filtered_val, s4.current_bpm⟩
  else if 10 * (filtered_val : ℤ) < 9 * s3.threshold then
    ⟨{ s3 with beat_detected := false }, false, p.2.1, filtered_val, s3.current_bpm⟩
  else
    ⟨s3, false, p.2.1, filtered_val, s3.current_bpm⟩

/-- `PulseSensor.get_signal_strength`. -/
def get_signal_strength (s : PulseSensor) : ℤ :=
  let signal_range : ℤ := (s.peak_value : ℤ) - (s.valley_value : ℤ)
  min 100 (max 0 (Int.fdiv (signal_range - 500) 100))

/-! Trace combinators: running a sequence of `detect_beat` (or
`read_filtered`) calls, each given by its `(raw, now)` input pair. -/

/-- State after one `detect_beat` call with input `(raw, now)`. -/
def detectStep (s : PulseSensor) (c : ℕ × ℕ) : PulseSensor :=
  (detect_beat s c.1 c.2).state

/-- State after a sequence of `detect_beat` calls. -/
def runDetect (s : PulseSensor) (cs : List (ℕ × ℕ)) : PulseSensor :=
  cs.foldl detectStep s

/-- Sequence of `beat_detected` outputs along a run of `detect_beat` calls. -/
def detectOuts : PulseSensor → List (ℕ × ℕ) → List Bool
  | _, [] => []
  | s, c :: cs => (detect_beat s c.1 c.2).beat :: detectOuts (detectStep s c) cs

/-- Timestamps of the calls that confirm a beat along a run. -/
def fireTimes : PulseSensor → List (ℕ × ℕ) → List ℕ
  | _, [] => []
  | s, c :: cs =>
    if (detect_beat s c.1 c.2).beat then c.2 :: fireTimes (detectStep s c) cs
    else fireTimes (detectStep s c) cs

/-- State after a sequence of `read_filtered` calls with the given raws. -/
def runRead (s : PulseSensor) (rs : List ℕ) : PulseSensor :=
  rs.foldl (fun t r => (read_filtered t r).1) s

/-- One `detect_beat` call lies in the hysteresis band: its filtered value
is at least `threshold * 0.9` (the threshold in force during that call) and
at most the current peak. -/
def inBandB (s : PulseSensor) (c : ℕ × ℕ) : Bool :=
  let r := detect_beat s c.1 c.2
  decide (9 * r.state.threshold ≤ 10 * (r.filtered_value : ℤ)) &&
    decide (r.filtered_value ≤ r.state.peak_value)

/-- Every call of the run stays in the hysteresis band. -/
def allInBand : PulseSensor → List (ℕ × ℕ) → Bool
  | _, [] => true
  | s, c :: cs => inBandB s c && allInBand (detectStep s c) cs

/-- Successive timestamps exactly 600 ms apart. -/
def chain600 : List ℕ → Bool
  | [] => true
  | [_] => true
  | a :: b :: ts => decide (b = a + 600) && chain600 (b :: ts)

/-- States reachable from startup by any sequence of `calibrate`,
`read_filtered` and `detect_beat` calls. -/
inductive Reachable : PulseSensor → Prop where
  | init (tf : ℚ) (mbi : ℤ) : Reachable (initState tf mbi)
  | cal (s : PulseSensor) (h : Reachable s) (samples : List ℕ) :
      Reachable (calibrate s samples)
  | read (s : PulseSensor) (h : Reachable s) (raw : ℕ) :
      Reachable (read_filtered s raw).1
  | step (s : PulseSensor) (h : Reachable s) (raw now : ℕ) :
      Reachable (detect_beat s raw now).state

/-! Concrete configurations and input traces used to instantiate the
theorems below on closed inputs. -/

/-- The default threshold factor `0.6` as a literal rational (numerator 3,
denominator 5), in a form the kernel can evaluate. -/
def factor06 : ℚ := ⟨3, 5, by decide, by decide⟩

/-- A sensor fresh out of `__init__` with the default configuration
(`threshold_factor = 0.6`, `min_beat_interval = 300`). -/
def defaultSensor : PulseSensor := initState factor06 300

/-- A state whose observed signal range is exactly 500. -/
def strength500State : PulseSensor :=
  { defaultSensor with
    peak_value := 1000
    valley_value := 500 }

/-- A state whose observed signal range is exactly 1500. -/
def strength1500State : PulseSensor :=
  { defaultSensor with
    peak_value := 2000
    valley_value := 500 }

/-- A state whose observed signal range is exactly 20000. -/
def strength20000State : PulseSensor :=
  { defaultSensor with
    peak_value := 20500
    valley_value := 500 }

/-- A state whose observed signal range is 5000, which exceeds the 1000-unit
adaptation floor on the next `detect_beat` call. -/
def range5000State : PulseSensor :=
  { defaultSensor with
    peak_value := 5000
    valley_value := 0 }

/-- An armed (latched) state with threshold 500 and a locked range of
exactly 1000, so the threshold never adapts. -/
def armedBandState : PulseSensor :=
  { defaultSensor with
    threshold := 500
    peak_value := 1000
    valley_value := 0
    beat_detected := true
    last_beat_time := 400 }

/-- An unarmed state with threshold 500 and a locked range of exactly
1000. -/
def periodicState : PulseSensor :=
  { defaultSensor with
    threshold := 500
    peak_value := 1000
    valley_value := 0 }

/-- One warm-up call before the first confirmed beat of the two-beat
refractory scenario. -/
def refractoryLead : List (ℕ × ℕ) := [(50000, 100)]

/-- The calls between the two confirmed beats of the refractory scenario:
they flush the filter window and let the hysteresis re-arm. -/
def refractoryMid : List (ℕ × ℕ) :=
  [(0, 600), (0, 700), (0, 800), (0, 900), (0, 1000),
   (0, 1100), (0, 1200), (0, 1300), (0, 1400), (0, 1500)]

/-- 120 calls every 30 ms: ten raws of 1000 then ten raws of 0, repeating.
From `periodicState` this confirms a beat every 600 ms (six in total). -/
def periodicCalls : List (ℕ × ℕ) :=
  (List.range 120).map (fun k => (if k % 20 < 10 then 1000 else 0, 30 * (k + 1) + 300))

/-- A 100-sample calibration batch with minimum 20000 and maximum 40000. -/
def calSamples : List ℕ := 20000 :: 40000 :: List.replicate 98 30000

/-! Helper lemmas about the phases of `detect_beat`. -/

/-- Threshold state right before the state-machine branch of a
`detect_beat` call: filter update, then peak/valley/threshold adaptation. -/
def adapted (s : PulseSensor) (raw : ℕ) : PulseSensor :=
  adaptThreshold (read_filtered s raw).1 (filteredOf s raw)

theorem adaptThreshold_peak (s : PulseSensor) (f : ℕ) :
    (adaptThreshold s f).peak_value =
      if s.peak_value < f then f else s.peak_value := by
  unfold adaptThreshold
  dsimp only
  split_ifs <;> rfl

theorem adaptThreshold_valley (s : PulseSensor) (f : ℕ) :
    (adaptThreshold s f).valley_value =
      if f < s.valley_value then f else s.valley_value := by
  unfold adaptThreshold
  dsimp only
  split_ifs <;> rfl

theorem adaptThreshold_threshold (s : PulseSensor) (f : ℕ) :
    (adaptThreshold s f).threshold =
      if 1000 < ((adaptThreshold s f).peak_value : ℤ) - ((adaptThreshold s f).valley_value : ℤ) then
        ((adaptThreshold s f).valley_value : ℤ) +
          intFloat (((adaptThreshold s f).peak_value : ℤ) - ((adaptThreshold s f).valley_value : ℤ))
            s.threshold_factor
      else s.threshold := by
  rw [adaptThreshold_peak, adaptThreshold_valley]
  unfold adaptThreshold
  dsimp only
  split_ifs <;> rfl

theorem adaptThreshold_frame (s : PulseSensor) (f : ℕ) :
    (adaptThreshold s f).threshold_factor = s.threshold_factor ∧
    (adaptThreshold s f).min_beat_interval = s.min_beat_interval ∧
    (adaptThreshold s f).filter_size = s.filter_size ∧
    (adaptThreshold s f).readings = s.readings ∧
    (adaptThreshold s f).reading_index = s.reading_index ∧
    (adaptThreshold s f).filtered_value = s.filtered_value ∧
    (adaptThreshold s f).baseline = s.baseline ∧
    (adaptThreshold s f).last_beat_time = s.last_beat_time ∧
    (adaptThreshold s f).beat_detected = s.beat_detected ∧
    (adaptThreshold s f).beat_intervals = s.beat_intervals ∧
    (adaptThreshold s f).max_intervals = s.max_intervals ∧
    (adaptThreshold s f).current_bpm = s.current_bpm ∧
    (adaptThreshold s f).calibration_samples = s.calibration_samples ∧
    (adaptThreshold s f).calibrated = s.calibrated := by
  unfold adaptThreshold
  dsimp only
  split_ifs <;> exact ⟨rfl, rfl, rfl, rfl, rfl, rfl, rfl, rfl, rfl, rfl, rfl, rfl, rfl, rfl⟩

theorem fireBeat_last (s : PulseSensor) (t : ℕ) :
    (fireBeat s t).last_beat_time = t := rfl

theorem fireBeat_frame (s : PulseSensor) (t : ℕ) :
    (fireBeat s t).threshold_factor = s.threshold_factor ∧
    (fireBeat s t).min_beat_interval = s.min_beat_interval ∧
    (fireBeat s t).filter_size = s.filter_size ∧
    (fireBeat s t).readings = s.readings ∧
    (fireBeat s t).reading_index = s.reading_index ∧
    (fireBeat s t).filtered_value = s.filtered_value ∧
    (fireBeat s t).baseline = s.baseline ∧
    (fireBeat s t).beat_detected = s.beat_detected ∧
    (fireBeat s t).peak_value = s.peak_value ∧
    (fireBeat s t).valley_value = s.valley_value ∧
    (fireBeat s t).threshold = s.threshold ∧
    (fireBeat s t).max_intervals = s.max_intervals ∧
    (fireBeat s t).calibration_samples = s.calibration_samples ∧
    (fireBeat s t).calibrated = s.calibrated := by
  unfold fireBeat
  dsimp only
  split_ifs <;> exact ⟨rfl, rfl, rfl, rfl, rfl, rfl, rfl, rfl, rfl, rfl, rfl, rfl, rfl, rfl⟩

theorem detect_beat_ite (s : PulseSensor) (raw now : ℕ) :
    detect_beat s raw now =
      if fireCond (adapted s raw) (filteredOf s raw) now then
        ⟨fireBeat { adapted s raw with beat_detected := true } now, true, raw,
          filteredOf s raw,
          (fireBeat { adapted s raw with beat_detected := true } now).current_bpm⟩
      else if 10 * (filteredOf s raw : ℤ) < 9 * (adapted s raw).threshold then
        ⟨{ adapted s raw with beat_detected := false }, false, raw, filteredOf s raw,
          (adapted s raw).current_bpm⟩
      else
        ⟨adapted s raw, false, raw, filteredOf s raw, (adapted s raw).current_bpm⟩ := rfl

theorem detect_beat_beat_iff (s : PulseSensor) (raw now : ℕ) :
    (detect_beat s raw now).beat = true ↔
      fireCond (adapted s raw) (filteredOf s raw) now := by
  rw [detect_beat_ite]
  by_cases h1 : fireCond (adapted s raw) (filteredOf s raw) now
  · rw [if_pos h1]
    simpa using h1
  · rw [if_neg h1]
    by_cases h2 : 10 * (filteredOf s raw : ℤ) < 9 * (adapted s raw).threshold
    · rw [if_pos h2]
      simpa using h1
    · rw [if_neg h2]
      simpa using h1

theorem detect_beat_state_of_fire (s : PulseSensor) (raw now : ℕ)
    (h : (detect_beat s raw now).beat = true) :
    (detect_beat s raw now).state =
      fireBeat { adapted s raw with beat_detected := true } now := by
  have h1 := (detect_beat_beat_iff s raw now).mp h
  rw [detect_beat_ite, if_pos h1]

theorem detect_beat_state_no_fire (s : PulseSensor) (raw now : ℕ)
    (h : (detect_beat s raw now).beat = false) :
    (detect_beat s raw now).state = { adapted s raw with beat_detected := false } ∨
      (detect_beat s raw now).state = adapted s raw := by
  have h1 : ¬ fireCond (adapted s raw) (filteredOf s raw) now := by
    intro hc
    rw [(detect_beat_beat_iff s raw now).mpr hc] at h
    exact Bool.noConfusion h
  rw [detect_beat_ite, if_neg h1]
  by_cases h2 : 10 * (filteredOf s raw : ℤ) < 9 * (adapted s raw).threshold
  · rw [if_pos h2]; left; rfl
  · rw [if_neg h2]; right; rfl

/-- Fields of the post-state that both non-fire branches and the fire branch
leave as `adapted s raw` has them. -/
theorem detect_beat_state_ranges (s : PulseSensor) (raw now : ℕ) :
    (detect_beat s raw now).state.peak_value = (adapted s raw).peak_value ∧
    (detect_beat s raw now).state.valley_value = (adapted s raw).valley_value ∧
    (detect_beat s raw now).state.threshold = (adapted s raw).threshold ∧
    (detect_beat s raw now).state.threshold_factor = s.threshold_factor ∧
    (detect_beat s raw now).state.min_beat_interval = s.min_beat_interval ∧
    (detect_beat s raw now).state.max_intervals = s.max_intervals ∧
    (detect_beat s raw now).state.filter_size = s.filter_size := by
  have hfr := adaptThreshold_frame (read_filtered s raw).1 (filteredOf s raw)
  have hfac : (adapted s raw).threshold_factor = s.threshold_factor := hfr.1
  have hmbi : (adapted s raw).min_beat_interval = s.min_beat_interval := hfr.2.1
  have hmax : (adapted s raw).max_intervals = s.max_intervals := hfr.2.2.2.2.2.2.2.2.2.2.1
  have hfs : (adapted s raw).filter_size = s.filter_size := hfr.2.2.1
  rw [detect_beat_ite]
  by_cases h1 : fireCond (adapted s raw) (filteredOf s raw) now
  · rw [if_pos h1]
    have hfb := fireBeat_frame { adapted s raw with beat_detected := true } now
    exact ⟨hfb.2.2.2.2.2.2.2.2.1, hfb.2.2.2.2.2.2.2.2.2.1, hfb.2.2.2.2.2.2.2.2.2.2.1,
      hfb.1.trans hfac, hfb.2.1.trans hmbi, hfb.2.2.2.2.2.2.2.2.2.2.2.1.trans hmax,
      hfb.2.2.1.trans hfs⟩
  · rw [if_neg h1]
    by_cases h2 : 10 * (filteredOf s raw : ℤ) < 9 * (adapted s raw).threshold
    · rw [if_pos h2]
      exact ⟨rfl, rfl, rfl, hfac, hmbi, hmax, hfs⟩
    · rw [if_neg h2]
      exact ⟨rfl, rfl, rfl, hfac, hmbi, hmax, hfs⟩

theorem adapted_peak (s : PulseSensor) (raw : ℕ) :
    (adapted s raw).peak_value =
      if s.peak_value < filteredOf s raw then filteredOf s raw else s.peak_value := by
  unfold adapted
  rw [adaptThreshold_peak]
  rfl

theorem adapted_valley (s : PulseSensor) (raw : ℕ) :
    (adapted s raw).valley_value =
      if filteredOf s raw < s.valley_value then filteredOf s raw else s.valley_value := by
  unfold adapted
  rw [adaptThreshold_valley]
  rfl

/-- Fields of the sensor state that `adaptThreshold` composed with the
filter update leaves unchanged. -/
theorem adapted_frame (s : PulseSensor) (raw : ℕ) :
    (adapted s raw).last_beat_time = s.last_beat_time ∧
    (adapted s raw).beat_detected = s.beat_detected ∧
    (adapted s raw).beat_intervals = s.beat_intervals ∧
    (adapted s raw).current_bpm = s.current_bpm ∧
    (adapted s raw).threshold_factor = s.threshold_factor ∧
    (adapted s raw).min_beat_interval = s.min_beat_interval ∧
    (adapted s raw).max_intervals = s.max_intervals := by
  have h := adaptThreshold_frame (read_filtered s raw).1 (filteredOf s raw)
  exact ⟨h.2.2.2.2.2.2.2.1, h.2.2.2.2.2.2.2.2.1, h.2.2.2.2.2.2.2.2.2.1,
    h.2.2.2.2.2.2.2.2.2.2.2.1, h.1, h.2.1, h.2.2.2.2.2.2.2.2.2.2.1⟩

theorem detect_beat_no_fire_frame (s : PulseSensor) (raw now : ℕ)
    (h : (detect_beat s raw now).beat = false) :
    (detect_beat s raw now).state.last_beat_time = s.last_beat_time ∧
    (detect_beat s raw now).state.beat_intervals = s.beat_intervals ∧
    (detect_beat s raw now).state.current_bpm = s.current_bpm := by
  have hs := detect_beat_state_no_fire s raw now h
  have hfr := adapted_frame s raw
  rcases hs with hs | hs <;> rw [hs]
  · exact ⟨hfr.1, hfr.2.2.1, hfr.2.2.2.1⟩
  · exact ⟨hfr.1, hfr.2.2.1, hfr.2.2.2.1⟩

theorem detect_beat_fire_facts (s : PulseSensor) (raw now : ℕ)
    (h : (detect_beat s raw now).beat = true) :
    (detect_beat s raw now).state.last_beat_time = now ∧
    s.min_beat_interval < (now : ℤ) - (s.last_beat_time : ℤ) ∧
    s.beat_detected = false := by
  have hc := (detect_beat_beat_iff s raw now).mp h
  have hfr := adapted_frame s raw
  refine ⟨?_, ?_, ?_⟩
  · rw [detect_beat_state_of_fire s raw now h]
    exact fireBeat_last _ now
  · have := hc.2.2
    rwa [hfr.2.2.2.2.2.1, hfr.1] at this
  · have := hc.2.1
    rwa [hfr.2.1] at this

theorem detect_beat_last_cases (s : PulseSensor) (raw now : ℕ) :
    (detect_beat s raw now).state.last_beat_time = now ∨
      (detect_beat s raw now).state.last_beat_time = s.last_beat_time := by
  cases hb : (detect_beat s raw now).beat
  · exact Or.inr (detect_beat_no_fire_frame s raw now hb).1
  · exact Or.inl (detect_beat_fire_facts s raw now hb).1

theorem fireBeat_no_append (s : PulseSensor) (t : ℕ) (h : s.last_beat_time = 0) :
    (fireBeat s t).beat_intervals = s.beat_intervals ∧
    (fireBeat s t).current_bpm = s.current_bpm := by
  unfold fireBeat
  dsimp only
  rw [h, if_neg (by omega)]
  exact ⟨rfl, rfl⟩

theorem fireBeat_append (s : PulseSensor) (t : ℕ) (h : 0 < s.last_beat_time) :
    (fireBeat s t).beat_intervals = fireIntervals s t ∧
    (fireBeat s t).current_bpm =
      (if 2 ≤ (fireIntervals s t).length then
        Int.tdiv (60000 * ((fireIntervals s t).length : ℤ)) (fireIntervals s t).sum
      else s.current_bpm) := by
  unfold fireBeat fireIntervals
  dsimp only
  rw [if_pos h]
  split_ifs <;> exact ⟨rfl, rfl⟩

theorem runDetect_nil (s : PulseSensor) : runDetect s [] = s := rfl

theorem runDetect_cons (s : PulseSensor) (c : ℕ × ℕ) (cs : List (ℕ × ℕ)) :
    runDetect s (c :: cs) = runDetect (detectStep s c) cs := rfl

theorem runDetect_append (s : PulseSensor) (as bs : List (ℕ × ℕ)) :
    runDetect s (as ++ bs) = runDetect (runDetect s as) bs := by
  unfold runDetect
  exact List.foldl_append _ _ _ _

/-- Configuration fields are never written by `detect_beat`, hence are
preserved along any run. -/
theorem runDetect_config (s : PulseSensor) (cs : List (ℕ × ℕ)) :
    (runDetect s cs).threshold_factor = s.threshold_factor ∧
    (runDetect s cs).min_beat_interval = s.min_beat_interval ∧
    (runDetect s cs).max_intervals = s.max_intervals ∧
    (runDetect s cs).filter_size = s.filter_size := by
  induction cs generalizing s with
  | nil => exact ⟨rfl, rfl, rfl, rfl⟩
  | cons c cs ih =>
    rw [runDetect_cons]
    have hstep := detect_beat_state_ranges s c.1 c.2
    have h := ih (detectStep s c)
    unfold detectStep at h ⊢
    exact ⟨h.1.trans hstep.2.2.2.1, h.2.1.trans hstep.2.2.2.2.1,
      h.2.2.1.trans hstep.2.2.2.2.2.1, h.2.2.2.trans hstep.2.2.2.2.2.2⟩

theorem detectStep_peak_valley (s : PulseSensor) (c : ℕ × ℕ) :
    s.peak_value ≤ (detectStep s c).peak_value ∧
      (detectStep s c).valley_value ≤ s.valley_value := by
  have h := detect_beat_state_ranges s c.1 c.2
  unfold detectStep
  rw [h.1, h.2.1, adapted_peak, adapted_valley]
  constructor
  · split_ifs with hp
    · omega
    · omega
  · split_ifs with hv
    · omega
    · omega

theorem runDetect_peak_valley (s : PulseSensor) (cs : List (ℕ × ℕ)) :
    s.peak_value ≤ (runDetect s cs).peak_value ∧
      (runDetect s cs).valley_value ≤ s.valley_value := by
  induction cs generalizing s with
  | nil => exact ⟨le_refl _, le_refl _⟩
  | cons c cs ih =>
    rw [runDetect_cons]
    have h1 := detectStep_peak_valley s c
    have h2 := ih (detectStep s c)
    exact ⟨h1.1.trans h2.1, h2.2.trans h1.2⟩

/-- Once the last confirmed beat is at time `t` or later, it stays at `t` or
later along any run whose call times are all at least `t`. -/
theorem runDetect_last_ge (s : PulseSensor) (cs : List (ℕ × ℕ)) (t : ℕ)
    (hs : t ≤ s.last_beat_time) (hcs : ∀ c ∈ cs, t ≤ c.2) :
    t ≤ (runDetect s cs).last_beat_time := by
  induction cs generalizing s with
  | nil => exact hs
  | cons c cs ih =>
    rw [runDetect_cons]
    refine ih (detectStep s c) ?_ (fun d hd => hcs d (List.mem_cons_of_mem c hd))
    rcases detect_beat_last_cases s c.1 c.2 with h | h
    · unfold detectStep
      rw [h]
      exact hcs c (List.mem_cons_self c cs)
    · unfold detectStep
      rw [h]
      exact hs

theorem intFloat_nonneg (x : ℤ) (f : ℚ) (hx : 0 ≤ x) (hf : 0 ≤ f) :
    0 ≤ intFloat x f :=
  Int.tdiv_nonneg (mul_nonneg hx (Rat.num_nonneg.mpr hf)) (by positivity)

theorem intFloat_le_self (x : ℤ) (f : ℚ) (hx : 0 ≤ x) (hf1 : f ≤ 1) :
    intFloat x f ≤ x := by
  unfold intFloat
  have hden : (0 : ℤ) < (f.den : ℤ) := by
    exact_mod_cast f.den_pos
  have hnum : f.num ≤ (f.den : ℤ) := by
    have h := Rat.le_def.mp hf1
    simpa using h
  rcases le_or_lt 0 f.num with hn | hn
  · have h1 : x * f.num ≤ x * (f.den : ℤ) := mul_le_mul_of_nonneg_left hnum hx
    have h2 : Int.tdiv (x * f.num) (f.den : ℤ) = (x * f.num) / (f.den : ℤ) :=
      Int.tdiv_eq_ediv (mul_nonneg hx hn) (le_of_lt hden)
    rw [h2]
    calc (x * f.num) / (f.den : ℤ) ≤ (x * (f.den : ℤ)) / (f.den : ℤ) :=
          Int.ediv_le_ediv hden h1
      _ = x := Int.mul_ediv_cancel x (ne_of_gt hden)
  · have h1 : x * f.num ≤ 0 := mul_nonpos_of_nonneg_of_nonpos hx (le_of_lt hn)
    have h3 : 0 ≤ Int.tdiv (-(x * f.num)) (f.den : ℤ) :=
      Int.tdiv_nonneg (by omega) (by omega)
    have h4 : Int.tdiv (-(x * f.num)) (f.den : ℤ) = -(Int.tdiv (x * f.num) (f.den : ℤ)) :=
      Int.neg_tdiv _ _
    omega

/-- Characterization of the threshold after the adaptive phase of a
`detect_beat` call, in terms of the call's resulting peak and valley. -/
theorem adapted_threshold (s : PulseSensor) (raw : ℕ) :
    (adapted s raw).threshold =
      if 1000 < ((adapted s raw).peak_value : ℤ) - ((adapted s raw).valley_value : ℤ) then
        ((adapted s raw).valley_value : ℤ) +
          intFloat (((adapted s raw).peak_value : ℤ) - ((adapted s raw).valley_value : ℤ))
            s.threshold_factor
      else s.threshold := by
  unfold adapted
  rw [adaptThreshold_threshold]
  rfl

/-- A `detect_beat` call whose resulting signal range is at most 1000 does
not write the threshold. -/
theorem detectStep_threshold_frame (s : PulseSensor) (c : ℕ × ℕ)
    (h : ((detectStep s c).peak_value : ℤ) - ((detectStep s c).valley_value : ℤ) ≤ 1000) :
    (detectStep s c).threshold = s.threshold := by
  have hr := detect_beat_state_ranges s c.1 c.2
  unfold detectStep at h ⊢
  rw [hr.1, hr.2.1] at h
  rw [hr.2.2.1, adapted_threshold, if_neg (by omega)]

/-- A `detect_beat` call whose resulting signal range exceeds 1000
recomputes the threshold from the new valley and range. -/
theorem detectStep_threshold_update (s : PulseSensor) (c : ℕ × ℕ)
    (h : 1000 < ((detectStep s c).peak_value : ℤ) - ((detectStep s c).valley_value : ℤ)) :
    (detectStep s c).threshold =
      ((detectStep s c).valley_value : ℤ) +
        intFloat (((detectStep s c).peak_value : ℤ) - ((detectStep s c).valley_value : ℤ))
          s.threshold_factor := by
  have hr := detect_beat_state_ranges s c.1 c.2
  unfold detectStep at h ⊢
  rw [hr.1, hr.2.1] at h
  rw [hr.2.2.1, adapted_threshold, if_pos h, hr.1, hr.2.1]

/-! Claim theorems. -/

/-- C10: across any sequence of `detect_beat` calls with no intervening
`calibrate`, `peak_value` is monotonically non-decreasing and
`valley_value` monotonically non-increasing — detection never decays or
resets them — so the observed signal range can only grow (and in
particular a transient spike raises `peak_value` for good until a
recalibration). -/
theorem claim_peak_valley_monotone (s : PulseSensor) (cs : List (ℕ × ℕ)) :
    s.peak_value ≤ (runDetect s cs).peak_value ∧
    (runDetect s cs).valley_value ≤ s.valley_value ∧
    (s.peak_value : ℤ) - (s.valley_value : ℤ) ≤
      ((runDetect s cs).peak_value : ℤ) - ((runDetect s cs).valley_value : ℤ) := by
  have h := runDetect_peak_valley s cs
  have h1 := h.1
  have h2 := h.2
  exact ⟨h1, h2, by omega⟩

/-- C8: `get_signal_strength` always lies in `[0, 100]`; a range of 500
gives 0, a range of 1500 gives 10, any range of at least 10500 gives 100,
and any range below 500 (negative ranges included, as in the initial
state) gives 0. -/
theorem claim_signal_strength (s : PulseSensor) :
    (0 ≤ get_signal_strength s ∧ get_signal_strength s ≤ 100) ∧
    ((s.peak_value : ℤ) - (s.valley_value : ℤ) = 500 → get_signal_strength s = 0) ∧
    ((s.peak_value : ℤ) - (s.valley_value : ℤ) = 1500 → get_signal_strength s = 10) ∧
    (10500 ≤ (s.peak_value : ℤ) - (s.valley_value : ℤ) → get_signal_strength s = 100) ∧
    ((s.peak_value : ℤ) - (s.valley_value : ℤ) < 500 → get_signal_strength s = 0) := by
  unfold get_signal_strength
  dsimp only
  rw [Int.fdiv_eq_ediv _ (show (0 : ℤ) ≤ 100 by norm_num)]
  refine ⟨⟨?_, ?_⟩, fun h => ?_, fun h => ?_, fun h => ?_, fun h => ?_⟩ <;> omega

/-- Witness for the signal-strength claim: the boundary values 500, 1500
and 20500, and the initial state's negative range. -/
theorem claim_signal_strength_witness :
    get_signal_strength strength500State = 0 ∧
    get_signal_strength strength1500State = 10 ∧
    get_signal_strength strength20000State = 100 ∧
    get_signal_strength defaultSensor = 0 :=
  ⟨(claim_signal_strength strength500State).2.1 (by decide),
   (claim_signal_strength strength1500State).2.2.1 (by decide),
   (claim_signal_strength strength20000State).2.2.2.1 (by decide),
   (claim_signal_strength defaultSensor).2.2.2.2 (by decide)⟩

/-- C7: across any sequence of `detect_beat` calls with no intervening
`calibrate`, if the signal range `peak_value - valley_value` is at most
1000 after every call, the `threshold` field is never written and keeps
its initial or calibrated value. -/
theorem claim_threshold_floor (s : PulseSensor) (cs : List (ℕ × ℕ))
    (h : ∀ n, n < cs.length →
      ((runDetect s (cs.take (n + 1))).peak_value : ℤ) -
        ((runDetect s (cs.take (n + 1))).valley_value : ℤ) ≤ 1000) :
    (runDetect s cs).threshold = s.threshold := by
  induction cs generalizing s with
  | nil => rfl
  | cons c cs ih =>
    have h0 := h 0 (by simp)
    have hstep : (detectStep s c).threshold = s.threshold :=
      detectStep_threshold_frame s c h0
    have hshift : ∀ n, n < cs.length →
        ((runDetect (detectStep s c) (cs.take (n + 1))).peak_value : ℤ) -
          ((runDetect (detectStep s c) (cs.take (n + 1))).valley_value : ℤ) ≤ 1000 := by
      intro n hn
      have h2 := h (n + 1) (by simpa using Nat.succ_lt_succ hn)
      rw [List.take_succ_cons, runDetect_cons] at h2
      exact h2
    rw [runDetect_cons, ih (detectStep s c) hshift, hstep]

/-- Witness for the threshold-floor claim: a single call from the default
state keeps the range at 0 and the threshold at its initial 35000. -/
theorem claim_threshold_floor_witness :
    (runDetect defaultSensor [(0, 0)]).threshold = defaultSensor.threshold :=
  claim_threshold_floor defaultSensor [(0, 0)] (by decide)

set_option maxRecDepth 2000 in
/-- C1 counterexample: the state produced by `calibrate` itself violates
`valley ≤ threshold ≤ peak` although its signal range (20000) exceeds the
adaptation floor: with min 20000, max 40000 and factor 0.6, `calibrate`
sets `threshold = 30000 + int(20000 * 0.6) = 42000 > peak = 40000`. -/
theorem claim_threshold_invariant_cex :
    1000 < ((calibrate defaultSensor calSamples).peak_value : ℤ) -
        ((calibrate defaultSensor calSamples).valley_value : ℤ) ∧
    ¬ ((calibrate defaultSensor calSamples).threshold ≤
        ((calibrate defaultSensor calSamples).peak_value : ℤ)) ∧
    (calibrate defaultSensor calSamples).threshold = 42000 ∧
    (calibrate defaultSensor calSamples).peak_value = 40000 := by
  decide

/-- C1 amended: the invariant `valley ≤ threshold ≤ peak` holds in the
state produced by a `detect_beat` call whose resulting signal range
exceeds the 1000-unit floor (for any `threshold_factor` between 0 and 1);
when the range stays at or below the floor, the call leaves the threshold
at its previous (calibrated or default) value.  The state produced by
`calibrate` itself is exempt: there the threshold can exceed the peak. -/
theorem claim_threshold_invariant_detect (s : PulseSensor) (c : ℕ × ℕ)
    (h0 : 0 ≤ s.threshold_factor) (h1 : s.threshold_factor ≤ 1) :
    (1000 < ((detectStep s c).peak_value : ℤ) - ((detectStep s c).valley_value : ℤ) →
      ((detectStep s c).valley_value : ℤ) ≤ (detectStep s c).threshold ∧
        (detectStep s c).threshold ≤ ((detectStep s c).peak_value : ℤ)) ∧
    (((detectStep s c).peak_value : ℤ) - ((detectStep s c).valley_value : ℤ) ≤ 1000 →
      (detectStep s c).threshold = s.threshold) := by
  constructor
  · intro h
    rw [detectStep_threshold_update s c h]
    have hr : (0 : ℤ) ≤
        ((detectStep s c).peak_value : ℤ) - ((detectStep s c).valley_value : ℤ) := by omega
    have hnn := intFloat_nonneg _ s.threshold_factor hr h0
    have hle := intFloat_le_self _ s.threshold_factor hr h1
    omega
  · intro h
    exact detectStep_threshold_frame s c h

/-- Witness for the amended C1 invariant: one call from a state with range
5000 recomputes the threshold to 3000, between valley 0 and peak 5000. -/
theorem claim_threshold_invariant_detect_witness :
    ((detectStep range5000State (0, 0)).valley_value : ℤ) ≤
        (detectStep range5000State (0, 0)).threshold ∧
      (detectStep range5000State (0, 0)).threshold ≤
        ((detectStep range5000State (0, 0)).peak_value : ℤ) :=
  (claim_threshold_invariant_detect range5000State (0, 0)
    (by decide) (by decide)).1 (by decide)

/-- C2: refractory gating.  If two `detect_beat` calls of one run both
confirm a beat (the first at time `c1.2`, the second at time `c2.2`, with
a monotone clock in between), then their timestamps are more than
`min_beat_interval` apart; hence two calls less than the refractory
interval apart can confirm at most one beat. -/
theorem claim_refractory (s : PulseSensor) (as bs : List (ℕ × ℕ)) (c1 c2 : ℕ × ℕ)
    (hmono : ∀ c ∈ bs, c1.2 ≤ c.2)
    (h1 : (detect_beat (runDetect s as) c1.1 c1.2).beat = true)
    (h2 : (detect_beat (runDetect s (as ++ c1 :: bs)) c2.1 c2.2).beat = true) :
    s.min_beat_interval < (c2.2 : ℤ) - (c1.2 : ℤ) := by
  have hfire1 := detect_beat_fire_facts (runDetect s as) c1.1 c1.2 h1
  have hsplit : runDetect s (as ++ c1 :: bs) =
      runDetect (detectStep (runDetect s as) c1) bs := by
    rw [runDetect_append, runDetect_cons]
  have hlast1 : c1.2 ≤ (detectStep (runDetect s as) c1).last_beat_time :=
    le_of_eq hfire1.1.symm
  have hge : c1.2 ≤ (runDetect (detectStep (runDetect s as) c1) bs).last_beat_time :=
    runDetect_last_ge _ bs c1.2 hlast1 hmono
  have hfire2 := detect_beat_fire_facts (runDetect s (as ++ c1 :: bs)) c2.1 c2.2 h2
  have hmbi2 : (runDetect s (as ++ c1 :: bs)).min_beat_interval =
      s.min_beat_interval := (runDetect_config s _).2.1
  have h2' := hfire2.2.1
  rw [hmbi2, hsplit] at h2'
  have hge' : (c1.2 : ℤ) ≤
      ((runDetect (detectStep (runDetect s as) c1) bs).last_beat_time : ℤ) := by
    exact_mod_cast hge
  omega

set_option maxRecDepth 2000 in
/-- Witness for the refractory claim: from the default state, beats are
confirmed at t = 500 and t = 1600, and indeed 1600 - 500 = 1100 > 300. -/
theorem claim_refractory_witness :
    defaultSensor.min_beat_interval < ((1600 : ℕ) : ℤ) - ((500 : ℕ) : ℤ) :=
  claim_refractory defaultSensor refractoryLead refractoryMid (50000, 500) (65535, 1600)
    (by decide) (by decide) (by decide)

theorem detect_beat_filtered (s : PulseSensor) (raw now : ℕ) :
    (detect_beat s raw now).filtered_value = filteredOf s raw := by
  rw [detect_beat_ite]
  split_ifs <;> rfl

/-- An armed detector given a filtered value at or above the hysteresis
floor `threshold * 0.9` does not fire and performs no state-machine
transition: the call returns the adapted state unchanged. -/
theorem detect_beat_armed_in_band (s : PulseSensor) (c : ℕ × ℕ)
    (h_armed : s.beat_detected = true) (hb : inBandB s c = true) :
    (detect_beat s c.1 c.2).beat = false ∧
      (detect_beat s c.1 c.2).state = adapted s c.1 := by
  have hnf : ¬ fireCond (adapted s c.1) (filteredOf s c.1) c.2 := by
    intro hc
    have hlatch := hc.2.1
    rw [(adapted_frame s c.1).2.1, h_armed] at hlatch
    exact Bool.noConfusion hlatch
  have hband9 : 9 * (adapted s c.1).threshold ≤ 10 * ((filteredOf s c.1 : ℕ) : ℤ) := by
    have hb1 := (Bool.and_eq_true _ _).mp hb
    have h9 := of_decide_eq_true hb1.1
    rwa [(detect_beat_state_ranges s c.1 c.2).2.2.1, detect_beat_filtered] at h9
  rw [detect_beat_ite, if_neg hnf, if_neg (by omega)]
  exact ⟨rfl, rfl⟩

/-- C3: hysteresis idempotence.  Starting from an armed (latched) state,
any number of consecutive `detect_beat` calls whose filtered values stay
between `threshold * 0.9` (the threshold in force at that call) and the
current peak all return `beat = false`, keep the latch set, and leave
`last_beat_time`, the interval window and the BPM untouched. -/
theorem claim_hysteresis (s : PulseSensor) (cs : List (ℕ × ℕ))
    (h_armed : s.beat_detected = true) (hband : allInBand s cs = true) :
    detectOuts s cs = List.replicate cs.length false ∧
    (runDetect s cs).beat_detected = true ∧
    (runDetect s cs).last_beat_time = s.last_beat_time ∧
    (runDetect s cs).beat_intervals = s.beat_intervals ∧
    (runDetect s cs).current_bpm = s.current_bpm := by
  induction cs generalizing s with
  | nil => exact ⟨rfl, h_armed, rfl, rfl, rfl⟩
  | cons c cs ih =>
    have hb : inBandB s c = true ∧ allInBand (detectStep s c) cs = true := by
      have := hband
      rw [show allInBand s (c :: cs) = (inBandB s c && allInBand (detectStep s c) cs)
        from rfl] at this
      exact (Bool.and_eq_true _ _).mp this
    have hstep := detect_beat_armed_in_band s c h_armed hb.1
    have hfr := adapted_frame s c.1
    have harmed2 : (detectStep s c).beat_detected = true := by
      unfold detectStep
      rw [hstep.2, hfr.2.1]
      exact h_armed
    have ih1 := ih (detectStep s c) harmed2 hb.2
    refine ⟨?_, ?_, ?_, ?_, ?_⟩
    · rw [show detectOuts s (c :: cs) =
          (detect_beat s c.1 c.2).beat :: detectOuts (detectStep s c) cs from rfl,
        hstep.1, ih1.1, List.length_cons, List.replicate_succ]
    · rw [runDetect_cons]
      exact ih1.2.1
    · rw [runDetect_cons, ih1.2.2.1]
      unfold detectStep
      rw [hstep.2]
      exact hfr.1
    · rw [runDetect_cons, ih1.2.2.2.1]
      unfold detectStep
      rw [hstep.2]
      exact hfr.2.2.1
    · rw [runDetect_cons, ih1.2.2.2.2]
      unfold detectStep
      rw [hstep.2]
      exact hfr.2.2.2.1

set_option maxRecDepth 2000 in
/-- Witness for the hysteresis claim: two in-band calls on an armed state
with threshold 500 produce `[false, false]` and keep every latched field. -/
theorem claim_hysteresis_witness :
    detectOuts armedBandState [(6000, 500), (6000, 600)] =
        List.replicate ([(6000, 500), (6000, 600)] : List (ℕ × ℕ)).length false ∧
      (runDetect armedBandState [(6000, 500), (6000, 600)]).beat_detected = true ∧
      (runDetect armedBandState [(6000, 500), (6000, 600)]).last_beat_time =
        armedBandState.last_beat_time ∧
      (runDetect armedBandState [(6000, 500), (6000, 600)]).beat_intervals =
        armedBandState.beat_intervals ∧
      (runDetect armedBandState [(6000, 500), (6000, 600)]).current_bpm =
        armedBandState.current_bpm :=
  claim_hysteresis armedBandState [(6000, 500), (6000, 600)] (by decide) (by decide)

/-- C5: ring buffer correctness.  From a zero-initialized filter window
with any starting write index `i < 10`, ten `read_filtered` calls with raw
values `rs` leave `filtered_value` equal to the truncated mean of all ten
raws, regardless of where the index started: the ten writes cover every
slot exactly once. -/
theorem claim_ring_buffer (tf : ℚ) (mbi : ℤ) (i : ℕ) (rs : List ℕ)
    (hi : i < 10) (hlen : rs.length = 10) :
    (runRead { initState tf mbi with reading_index := i } rs).filtered_value =
      rs.sum / 10 := by
  rcases rs with _ | ⟨r0, rs⟩
  · simp at hlen
  rcases rs with _ | ⟨r1, rs⟩
  · simp at hlen
  rcases rs with _ | ⟨r2, rs⟩
  · simp at hlen
  rcases rs with _ | ⟨r3, rs⟩
  · simp at hlen
  rcases rs with _ | ⟨r4, rs⟩
  · simp at hlen
  rcases rs with _ | ⟨r5, rs⟩
  · simp at hlen
  rcases rs with _ | ⟨r6, rs⟩
  · simp at hlen
  rcases rs with _ | ⟨r7, rs⟩
  · simp at hlen
  rcases rs with _ | ⟨r8, rs⟩
  · simp at hlen
  rcases rs with _ | ⟨r9, rs⟩
  · simp at hlen
  rcases rs with _ | ⟨r10, rs⟩
  swap
  · simp at hlen
  interval_cases i <;>
    · simp only [runRead, read_filtered, filteredOf, initState, List.foldl_cons,
        List.foldl_nil, List.set, List.sum_cons, List.sum_nil, List.replicate]
      try omega

set_option maxRecDepth 2000 in
/-- Witness for the ring-buffer claim: raws 1..10 written starting at
index 3 give a filtered value of 55 / 10 = 5. -/
theorem claim_ring_buffer_witness :
    (runRead { initState factor06 300 with reading_index := 3 }
        [1, 2, 3, 4, 5, 6, 7, 8, 9, 10]).filtered_value =
      ([1, 2, 3, 4, 5, 6, 7, 8, 9, 10] : List ℕ).sum / 10 :=
  claim_ring_buffer factor06 300 3 [1, 2, 3, 4, 5, 6, 7, 8, 9, 10]
    (by decide) (by decide)

/-- The literal rational `factor06` is the value `3 / 5`. -/
theorem factor06_eq : factor06 = 3 / 5 := by
  rw [factor06, Rat.mk'_eq_divInt, Rat.divInt_eq_div]
  norm_num

/-- C6: calibration determinism.  For any batch of 100 samples whose
running minimum is 20000 and maximum is 40000, with `threshold_factor =
0.6`, `calibrate` produces exactly `baseline = 30000`,
`threshold = 30000 + int(20000 * 0.6) = 42000`, `valley_value = 20000`,
`peak_value = 40000`, and sets the `calibrated` flag. -/
theorem claim_calibration (s : PulseSensor) (rs : List ℕ)
    (hlen : rs.length = 100)
    (hmin : rs.foldl Nat.min 65535 = 20000)
    (hmax : rs.foldl Nat.max 0 = 40000)
    (hf : s.threshold_factor = 3 / 5) :
    (calibrate s rs).baseline = 30000 ∧
    (calibrate s rs).threshold = 42000 ∧
    (calibrate s rs).valley_value = 20000 ∧
    (calibrate s rs).peak_value = 40000 ∧
    (calibrate s rs).calibrated = true := by
  unfold calibrate
  dsimp only
  rw [hmin, hmax, hf]
  refine ⟨rfl, ?_, rfl, rfl, rfl⟩
  unfold intFloat
  rw [show ((3 : ℚ) / 5).num = 3 by norm_num, show ((3 : ℚ) / 5).den = 5 by norm_num]
  decide

set_option maxRecDepth 2000 in
/-- Witness for the calibration claim at the concrete 100-sample batch. -/
theorem claim_calibration_witness :
    (calibrate defaultSensor calSamples).baseline = 30000 ∧
    (calibrate defaultSensor calSamples).threshold = 42000 ∧
    (calibrate defaultSensor calSamples).valley_value = 20000 ∧
    (calibrate defaultSensor calSamples).peak_value = 40000 ∧
    (calibrate defaultSensor calSamples).calibrated = true :=
  claim_calibration defaultSensor calSamples (by decide) (by decide) (by decide)
    factor06_eq

theorem detect_beat_bpm_eq (s : PulseSensor) (raw now : ℕ) :
    (detect_beat s raw now).bpm = (detect_beat s raw now).state.current_bpm := by
  rw [detect_beat_ite]
  split_ifs <;> rfl

/-- Invariant of every reachable state: `current_bpm` is 0 while the
interval window holds fewer than two entries, and otherwise equals the
truncated `60000 / mean(beat_intervals)`. -/
theorem reachable_bpm_invariant (s : PulseSensor) (h : Reachable s) :
    (s.beat_intervals.length < 2 → s.current_bpm = 0) ∧
    (2 ≤ s.beat_intervals.length →
      s.current_bpm =
        Int.tdiv (60000 * (s.beat_intervals.length : ℤ)) s.beat_intervals.sum) := by
  induction h with
  | init tf mbi =>
    refine ⟨fun _ => rfl, fun h2 => ?_⟩
    simp [initState] at h2
  | cal s h samples ih => exact ih
  | read s h raw ih => exact ih
  | step s h raw now ih =>
    cases hb : (detect_beat s raw now).beat with
    | false =>
      have hf := detect_beat_no_fire_frame s raw now hb
      rw [hf.2.1, hf.2.2]
      exact ih
    | true =>
      have hst := detect_beat_state_of_fire s raw now hb
      rw [hst]
      have hfr := adapted_frame s raw
      have hMl : ({ adapted s raw with beat_detected := true } :
          PulseSensor).last_beat_time = s.last_beat_time := hfr.1
      have hMi : ({ adapted s raw with beat_detected := true } :
          PulseSensor).beat_intervals = s.beat_intervals := hfr.2.2.1
      have hMb : ({ adapted s raw with beat_detected := true } :
          PulseSensor).current_bpm = s.current_bpm := hfr.2.2.2.1
      by_cases hl : 0 < ({ adapted s raw with beat_detected := true } :
          PulseSensor).last_beat_time
      · have hap := fireBeat_append _ now hl
        have hlenrel : s.beat_intervals.length ≤
            (fireIntervals { adapted s raw with beat_detected := true } now).length := by
          unfold fireIntervals
          dsimp only
          rw [hMi]
          split_ifs with hcond
          · rw [List.length_tail, List.length_append]
            simp
          · rw [List.length_append]
            simp
        constructor
        · intro hlen2
          rw [hap.1] at hlen2
          rw [hap.2, if_neg (by omega), hMb]
          exact ih.1 (by omega)
        · intro hlen2
          rw [hap.1] at hlen2
          rw [hap.2, hap.1, if_pos hlen2]
      · have hl0 : ({ adapted s raw with beat_detected := true } :
            PulseSensor).last_beat_time = 0 := by omega
        have hna := fireBeat_no_append _ now hl0
        rw [hna.1, hna.2, hMi, hMb]
        exact ih

/-- C9: in every state reachable from startup, the `bpm` value returned by
`detect_beat` is 0 whenever the interval window of the resulting state
holds fewer than 2 entries, and equals the truncated
`60000 / mean(beat_intervals)` as soon as the window holds at least 2
(so a nonzero BPM requires at least two recorded intervals). -/
theorem claim_bpm_default (s : PulseSensor) (h : Reachable s) (raw now : ℕ) :
    ((detect_beat s raw now).state.beat_intervals.length < 2 →
      (detect_beat s raw now).bpm = 0) ∧
    (2 ≤ (detect_beat s raw now).state.beat_intervals.length →
      (detect_beat s raw now).bpm =
        Int.tdiv (60000 * ((detect_beat s raw now).state.beat_intervals.length : ℤ))
          (detect_beat s raw now).state.beat_intervals.sum) := by
  have hr : Reachable (detect_beat s raw now).state := Reachable.step s h raw now
  have hi := reachable_bpm_invariant _ hr
  rw [detect_beat_bpm_eq]
  exact hi

/-- Witness for the BPM-default claim: the very first call from the
default startup state returns BPM 0. -/
theorem claim_bpm_default_witness :
    (detect_beat defaultSensor 0 0).bpm = 0 :=
  (claim_bpm_default defaultSensor (Reachable.init factor06 300) 0 0).1 (by decide)

theorem fireTimes_cons (s : PulseSensor) (c : ℕ × ℕ) (cs : List (ℕ × ℕ)) :
    fireTimes s (c :: cs) =
      if (detect_beat s c.1 c.2).beat then c.2 :: fireTimes (detectStep s c) cs
      else fireTimes (detectStep s c) cs := rfl

theorem chain600_cons_cons (a b : ℕ) (ts : List ℕ) :
    chain600 (a :: b :: ts) = (decide (b = a + 600) && chain600 (b :: ts)) := rfl

/-- A run in which no call confirms a beat leaves the BPM untouched. -/
theorem runDetect_no_fire_bpm (s : PulseSensor) (cs : List (ℕ × ℕ))
    (h : fireTimes s cs = []) :
    (runDetect s cs).current_bpm = s.current_bpm := by
  induction cs generalizing s with
  | nil => rfl
  | cons c cs ih =>
    rw [fireTimes_cons] at h
    by_cases hb : (detect_beat s c.1 c.2).beat = true
    · rw [if_pos hb] at h
      exact absurd h (List.cons_ne_nil _ _)
    · have hb2 : (detect_beat s c.1 c.2).beat = false := by
        revert hb
        cases (detect_beat s c.1 c.2).beat <;> simp
      rw [if_neg hb] at h
      rw [runDetect_cons, ih (detectStep s c) h]
      unfold detectStep
      exact (detect_beat_no_fire_frame s c.1 c.2 hb2).2.2

/-- When the interval window holds `j` copies of 600, the last beat was
600 ms ago and the capacity is 5, the window pushed by a confirmed beat is
again all copies of 600: `j + 1` of them, or `j` after eviction. -/
theorem fireIntervals_replicate (s : PulseSensor) (t : ℕ) (j : ℕ)
    (hw : s.beat_intervals = List.replicate j 600)
    (ht : (t : ℤ) - (s.last_beat_time : ℤ) = 600) (hmax : s.max_intervals = 5) :
    fireIntervals s t = List.replicate (if 5 < j + 1 then j else j + 1) (600 : ℤ) := by
  unfold fireIntervals
  dsimp only
  rw [hw, ht, hmax, ← List.replicate_succ', List.length_replicate]
  split_ifs with h
  · rw [List.replicate_succ, List.tail_cons]
  · rfl

/-- The truncated `60000 / mean` of a window of `n ≥ 1` copies of 600 is
exactly 100. -/
theorem bpm_of_replicate (n : ℕ) (hn : 1 ≤ n) :
    Int.tdiv (60000 * ((List.replicate n (600 : ℤ)).length : ℤ))
      (List.replicate n (600 : ℤ)).sum = 100 := by
  rw [List.length_replicate, List.sum_replicate, nsmul_eq_mul]
  have h1 : (60000 : ℤ) * (n : ℤ) = 100 * ((n : ℤ) * 600) := by ring
  rw [h1]
  have hn2 : (1 : ℤ) ≤ (n : ℤ) := by exact_mod_cast hn
  exact Int.mul_tdiv_cancel _ (by omega)

/-- Convergence kernel: once a beat is on record (`last_beat_time > 0`),
the window holds `j` copies of 600, and the remaining calls confirm `k ≥ 1`
further beats each exactly 600 ms after the previous one with `j + k ≥ 2`,
the final BPM is 100. -/
theorem bpm_conv_aux (cs : List (ℕ × ℕ)) (s : PulseSensor) (j : ℕ)
    (hw : s.beat_intervals = List.replicate j 600)
    (hl : 0 < s.last_beat_time)
    (hchain : chain600 (s.last_beat_time :: fireTimes s cs) = true)
    (hk : 1 ≤ (fireTimes s cs).length)
    (hjk : 2 ≤ j + (fireTimes s cs).length)
    (hmax : s.max_intervals = 5) :
    (runDetect s cs).current_bpm = 100 := by
  induction cs generalizing s j with
  | nil =>
    rw [show fireTimes s ([] : List (ℕ × ℕ)) = [] from rfl] at hk
    simp at hk
  | cons c cs ih =>
    rw [fireTimes_cons] at hchain hk hjk
    by_cases hb : (detect_beat s c.1 c.2).beat = true
    · rw [if_pos hb] at hchain hk hjk
      rw [chain600_cons_cons] at hchain
      have hchain2 := (Bool.and_eq_true _ _).mp hchain
      have hhead : c.2 = s.last_beat_time + 600 := of_decide_eq_true hchain2.1
      have hrest : chain600 (c.2 :: fireTimes (detectStep s c) cs) = true := hchain2.2
      have hst := detect_beat_state_of_fire s c.1 c.2 hb
      have hfr := adapted_frame s c.1
      have hMl : ({ adapted s c.1 with beat_detected := true } :
          PulseSensor).last_beat_time = s.last_beat_time := hfr.1
      have hMi : ({ adapted s c.1 with beat_detected := true } :
          PulseSensor).beat_intervals = s.beat_intervals := hfr.2.2.1
      have hMmax : ({ adapted s c.1 with beat_detected := true } :
          PulseSensor).max_intervals = s.max_intervals := hfr.2.2.2.2.2.2
      have hMl0 : 0 < ({ adapted s c.1 with beat_detected := true } :
          PulseSensor).last_beat_time := by rw [hMl]; exact hl
      have hap := fireBeat_append _ c.2 hMl0
      have hfi := fireIntervals_replicate
        ({ adapted s c.1 with beat_detected := true }) c.2 j
        (by rw [hMi, hw])
        (by rw [hMl, hhead]; push_cast; ring)
        (by rw [hMmax, hmax])
      have hlast2 : (detectStep s c).last_beat_time = c.2 :=
        (detect_beat_fire_facts s c.1 c.2 hb).1
      have hint2 : (detectStep s c).beat_intervals =
          List.replicate (if 5 < j + 1 then j else j + 1) (600 : ℤ) := by
        unfold detectStep
        rw [hst, hap.1, hfi]
      have hmax2 : (detectStep s c).max_intervals = 5 :=
        (detect_beat_state_ranges s c.1 c.2).2.2.2.2.2.1.trans hmax
      simp only [List.length_cons] at hjk
      by_cases hk1 : 1 ≤ (fireTimes (detectStep s c) cs).length
      · rw [runDetect_cons]
        refine ih (detectStep s c) (if 5 < j + 1 then j else j + 1)
          hint2 ?_ ?_ hk1 ?_ hmax2
        · rw [hlast2]
          omega
        · rw [hlast2]
          exact hrest
        · split_ifs with hj5 <;> omega
      · have hk0 : fireTimes (detectStep s c) cs = [] :=
          List.length_eq_zero.mp (by omega)
        rw [runDetect_cons, runDetect_no_fire_bpm _ cs hk0]
        have hj2 : 2 ≤ (if 5 < j + 1 then j else j + 1) := by
          rw [hk0] at hjk
          simp only [List.length_nil] at hjk
          split_ifs with hj5 <;> omega
        unfold detectStep
        rw [hst, hap.2, hfi, if_pos (by rw [List.length_replicate]; exact hj2)]
        exact bpm_of_replicate _ (by omega)
    · have hb2 : (detect_beat s c.1 c.2).beat = false := by
        revert hb
        cases (detect_beat s c.1 c.2).beat <;> simp
      rw [if_neg hb] at hchain hk hjk
      have hf := detect_beat_no_fire_frame s c.1 c.2 hb2
      rw [runDetect_cons]
      refine ih (detectStep s c) j ?_ ?_ ?_ hk hjk ?_
      · unfold detectStep
        rw [hf.2.1]
        exact hw
      · unfold detectStep
        rw [hf.1]
        exact hl
      · unfold detectStep
        rw [hf.1]
        exact hchain
      · exact (detect_beat_state_ranges s c.1 c.2).2.2.2.2.2.1.trans hmax

/-- C4: BPM convergence.  From a fresh detector (empty interval window, no
beat on record, capacity 5, nonnegative refractory interval), any run of
`detect_beat` calls that confirms at least 6 beats whose timestamps are
spaced exactly 600 ms apart ends with `current_bpm = 100` — every recorded
interval is 600 ms, so the truncated `60000 / mean` is exactly 100. -/
theorem claim_bpm_convergence (s : PulseSensor) (cs : List (ℕ × ℕ))
    (hmax : s.max_intervals = 5) (hmbi : 0 ≤ s.min_beat_interval)
    (hw : s.beat_intervals = []) (hl : s.last_beat_time = 0)
    (hchain : chain600 (fireTimes s cs) = true)
    (hlen : 6 ≤ (fireTimes s cs).length) :
    (runDetect s cs).current_bpm = 100 := by
  induction cs generalizing s with
  | nil =>
    rw [show fireTimes s ([] : List (ℕ × ℕ)) = [] from rfl] at hlen
    simp at hlen
  | cons c cs ih =>
    rw [fireTimes_cons] at hchain hlen
    by_cases hb : (detect_beat s c.1 c.2).beat = true
    · rw [if_pos hb] at hchain hlen
      have hst := detect_beat_state_of_fire s c.1 c.2 hb
      have hfr := adapted_frame s c.1
      have hMl0 : ({ adapted s c.1 with beat_detected := true } :
          PulseSensor).last_beat_time = 0 := by
        have h1 : ({ adapted s c.1 with beat_detected := true } :
            PulseSensor).last_beat_time = s.last_beat_time := hfr.1
        rw [h1, hl]
      have hna := fireBeat_no_append _ c.2 hMl0
      have hfacts := detect_beat_fire_facts s c.1 c.2 hb
      have hc2 : 0 < c.2 := by
        have h2 := hfacts.2.1
        rw [hl] at h2
        push_cast at h2
        omega
      have hlast2 : (detectStep s c).last_beat_time = c.2 := hfacts.1
      simp only [List.length_cons] at hlen
      rw [runDetect_cons]
      refine bpm_conv_aux cs (detectStep s c) 0 ?_ ?_ ?_ ?_ ?_ ?_
      · unfold detectStep
        rw [hst, hna.1, hfr.2.2.1, hw]
        rfl
      · rw [hlast2]
        exact hc2
      · rw [hlast2]
        exact hchain
      · omega
      · omega
      · exact (detect_beat_state_ranges s c.1 c.2).2.2.2.2.2.1.trans hmax
    · have hb2 : (detect_beat s c.1 c.2).beat = false := by
        revert hb
        cases (detect_beat s c.1 c.2).beat <;> simp
      rw [if_neg hb] at hchain hlen
      have hf := detect_beat_no_fire_frame s c.1 c.2 hb2
      rw [runDetect_cons]
      refine ih (detectStep s c) ?_ ?_ ?_ ?_ hchain hlen
      · exact (detect_beat_state_ranges s c.1 c.2).2.2.2.2.2.1.trans hmax
      · have hm : (detectStep s c).min_beat_interval = s.min_beat_interval :=
          (detect_beat_state_ranges s c.1 c.2).2.2.2.2.1
        rw [hm]
        exact hmbi
      · unfold detectStep
        rw [hf.2.1]
        exact hw
      · unfold detectStep
        rw [hf.1]
        exact hl

set_option maxRecDepth 3000 in
/-- Witness for the BPM-convergence claim: the 120-call periodic drive
confirms beats at t = 480, 1080, 1680, 2280, 2880, 3480 (exactly 600 ms
apart) and ends with BPM 100. -/
theorem claim_bpm_convergence_witness :
    (runDetect periodicState periodicCalls).current_bpm = 100 :=
  claim_bpm_convergence periodicState periodicCalls rfl (by decide) rfl rfl
    (by decide) (by decide)
